import Mathlib

/-!
# Verification of `src-tauri/src/version_manager.rs` (bym-refitted launcher)

Shallow embedding of the launcher's version-manager layer: remote manifest
resolution with https→http fallback, serde-style JSON parsing of the manifest
schema, local directory layout, build-variant existence checks and downloads,
and platform runtime selection.  External collaborators (the network, the
filesystem, the file-download helper, the event sink) are modelled as explicit
oracle parameters; side effects (emitted events, attempted transports and
downloads) are returned as explicit logs.
-/

namespace VersionManager

/-! ## JSON values

A parsed JSON document, as produced by `serde_json` before being deserialized
into the manifest structs. -/

inductive Json where
  | null
  | bool (b : Bool)
  | num (n : Int)
  | str (s : String)
  | arr (elems : List Json)
  | obj (fields : List (String × Json))
deriving Repr

/-- A response body as handed to `serde_json::from_str`: either text that
lexes as a JSON document, or text that is not valid JSON at all (the
`msg` abstracts the rendered serde error for the latter). -/
inductive BodyText where
  | json (j : Json)
  | malformed (msg : String)
deriving Repr

/-! ## Data model (structs from the source) -/

structure Builds where
  stable : String
  http : String
  «local» : String
deriving Repr, DecidableEq, Inhabited

structure FlashRuntimes where
  windows : String
  darwin : String
  linux : String
deriving Repr, DecidableEq, Inhabited

structure VersionManifest where
  current_game_version : String
  current_launcher_version : String
  builds : Builds
  flash_runtimes : FlashRuntimes
  https_worked : Bool
deriving Repr, DecidableEq, Inhabited

structure LocalVersionManifest where
  current_game_version : String
  current_launcher_version : String
  builds : Builds
  flash_runtimes : FlashRuntimes
deriving Repr, DecidableEq, Inhabited

/-! ## Constants (from the source) -/

def VERSION_INFO_PATH_BASE : String := "api.bymrefitted.com/launcher.json"
def DOWNLOAD_BASE_PATH : String := "api.bymrefitted.com/launcher/downloads/"
def DOWNLOADS_FOLDER : String := "bymr-downloads"
def BUILD_FOLDER : String := "bymr-downloads/swfs"
def RUNTIME_FOLDER : String := "bymr-downloads/runtimes"

/-! ## Serde-style deserialization

The structs derive `Deserialize` with no `#[serde(default)]`, so every field
is required: a missing field is an error, a duplicate field is an error, a
value of the wrong JSON type is an error, and unknown keys are ignored.
`serde_json` also accepts a JSON array holding the fields in declaration
order (`visit_seq`).  Error messages abstract serde's renderings. -/

def invalidTypeMsg : String := "invalid type"

def invalidLengthMsg : String := "invalid length"

def missingFieldMsg (f : String) : String := "missing field " ++ f

def duplicateFieldMsg (f : String) : String := "duplicate field " ++ f

/-- Deserialize a JSON value as a Rust `String` field. -/
def getStr : Json → Except String String
  | .str s => .ok s
  | _ => .error invalidTypeMsg

/-- Deserialize a JSON value as a Rust `bool` field. -/
def getBool : Json → Except String Bool
  | .bool b => .ok b
  | _ => .error invalidTypeMsg

/-- `visit_map` for `Builds`: walk the object's entries in order, filling the
three field slots, rejecting duplicates and ill-typed values, ignoring
unknown keys, and requiring every field at the end. -/
def Builds.fromFields :
    List (String × Json) → Option String → Option String → Option String →
    Except String Builds
  | [], stable?, http?, local? => do
    let stable ← (stable?.map Except.ok).getD (.error (missingFieldMsg "stable"))
    let http ← (http?.map Except.ok).getD (.error (missingFieldMsg "http"))
    let loc ← (local?.map Except.ok).getD (.error (missingFieldMsg "local"))
    .ok { stable := stable, http := http, «local» := loc }
  | (k, v) :: rest, stable?, http?, local? =>
    if k = "stable" then
      match stable? with
      | some _ => .error (duplicateFieldMsg "stable")
      | none => do Builds.fromFields rest (some (← getStr v)) http? local?
    else if k = "http" then
      match http? with
      | some _ => .error (duplicateFieldMsg "http")
      | none => do Builds.fromFields rest stable? (some (← getStr v)) local?
    else if k = "local" then
      match local? with
      | some _ => .error (duplicateFieldMsg "local")
      | none => do Builds.fromFields rest stable? http? (some (← getStr v))
    else
      Builds.fromFields rest stable? http? local?

/-- Derived `Deserialize` for `Builds` (`visit_map` on objects, `visit_seq`
on arrays, type error otherwise). -/
def Builds.fromJson : Json → Except String Builds
  | .obj fields => Builds.fromFields fields none none none
  | .arr [v₁, v₂, v₃] => do
    .ok { stable := ← getStr v₁, http := ← getStr v₂, «local» := ← getStr v₃ }
  | .arr _ => .error invalidLengthMsg
  | _ => .error invalidTypeMsg

/-- `visit_map` for `FlashRuntimes`. -/
def FlashRuntimes.fromFields :
    List (String × Json) → Option String → Option String → Option String →
    Except String FlashRuntimes
  | [], windows?, darwin?, linux? => do
    let windows ← (windows?.map Except.ok).getD (.error (missingFieldMsg "windows"))
    let darwin ← (darwin?.map Except.ok).getD (.error (missingFieldMsg "darwin"))
    let linux ← (linux?.map Except.ok).getD (.error (missingFieldMsg "linux"))
    .ok { windows, darwin, linux }
  | (k, v) :: rest, windows?, darwin?, linux? =>
    if k = "windows" then
      match windows? with
      | some _ => .error (duplicateFieldMsg "windows")
      | none => do FlashRuntimes.fromFields rest (some (← getStr v)) darwin? linux?
    else if k = "darwin" then
      match darwin? with
      | some _ => .error (duplicateFieldMsg "darwin")
      | none => do FlashRuntimes.fromFields rest windows? (some (← getStr v)) linux?
    else if k = "linux" then
      match linux? with
      | some _ => .error (duplicateFieldMsg "linux")
      | none => do FlashRuntimes.fromFields rest windows? darwin? (some (← getStr v))
    else
      FlashRuntimes.fromFields rest windows? darwin? linux?

/-- Derived `Deserialize` for `FlashRuntimes`. -/
def FlashRuntimes.fromJson : Json → Except String FlashRuntimes
  | .obj fields => FlashRuntimes.fromFields fields none none none
  | .arr [v₁, v₂, v₃] => do
    .ok { windows := ← getStr v₁, darwin := ← getStr v₂, linux := ← getStr v₃ }
  | .arr _ => .error invalidLengthMsg
  | _ => .error invalidTypeMsg

/-- `visit_map` for `VersionManifest`.  The external keys carry the serde
renames from the source: `currentGameVersion`, `currentLauncherVersion`,
`builds`, `flashRuntimes`, `httpsWorked`; all five fields are required. -/
def VersionManifest.fromFields :
    List (String × Json) → Option String → Option String → Option Builds →
    Option FlashRuntimes → Option Bool → Except String VersionManifest
  | [], cgv?, clv?, builds?, fr?, hw? => do
    let cgv ← (cgv?.map Except.ok).getD (.error (missingFieldMsg "currentGameVersion"))
    let clv ← (clv?.map Except.ok).getD (.error (missingFieldMsg "currentLauncherVersion"))
    let builds ← (builds?.map Except.ok).getD (.error (missingFieldMsg "builds"))
    let fr ← (fr?.map Except.ok).getD (.error (missingFieldMsg "flashRuntimes"))
    let hw ← (hw?.map Except.ok).getD (.error (missingFieldMsg "httpsWorked"))
    .ok { current_game_version := cgv, current_launcher_version := clv,
          builds := builds, flash_runtimes := fr, https_worked := hw }
  | (k, v) :: rest, cgv?, clv?, builds?, fr?, hw? =>
    if k = "currentGameVersion" then
      match cgv? with
      | some _ => .error (duplicateFieldMsg "currentGameVersion")
      | none => do VersionManifest.fromFields rest (some (← getStr v)) clv? builds? fr? hw?
    else if k = "currentLauncherVersion" then
      match clv? with
      | some _ => .error (duplicateFieldMsg "currentLauncherVersion")
      | none => do VersionManifest.fromFields rest cgv? (some (← getStr v)) builds? fr? hw?
    else if k = "builds" then
      match builds? with
      | some _ => .error (duplicateFieldMsg "builds")
      | none => do VersionManifest.fromFields rest cgv? clv? (some (← Builds.fromJson v)) fr? hw?
    else if k = "flashRuntimes" then
      match fr? with
      | some _ => .error (duplicateFieldMsg "flashRuntimes")
      | none => do VersionManifest.fromFields rest cgv? clv? builds? (some (← FlashRuntimes.fromJson v)) hw?
    else if k = "httpsWorked" then
      match hw? with
      | some _ => .error (duplicateFieldMsg "httpsWorked")
      | none => do VersionManifest.fromFields rest cgv? clv? builds? fr? (some (← getBool v))
    else
      VersionManifest.fromFields rest cgv? clv? builds? fr? hw?

/-- Derived `Deserialize` for `VersionManifest`. -/
def VersionManifest.fromJson : Json → Except String VersionManifest
  | .obj fields => VersionManifest.fromFields fields none none none none none
  | .arr [v₁, v₂, v₃, v₄, v₅] => do
    .ok { current_game_version := ← getStr v₁,
          current_launcher_version := ← getStr v₂,
          builds := ← Builds.fromJson v₃,
          flash_runtimes := ← FlashRuntimes.fromJson v₄,
          https_worked := ← getBool v₅ }
  | .arr _ => .error invalidLengthMsg
  | _ => .error invalidTypeMsg

/-- `serde_json::from_str::<VersionManifest>` on a body string. -/
def versionManifestFromStr : BodyText → Except String VersionManifest
  | .json j => VersionManifest.fromJson j
  | .malformed msg => .error msg

/-! ## The network oracle and `get_version_info`

`reqwest::get` either fails at the connection level (its `Err` branch; reqwest
does not error on non-2xx statuses) or yields a response with a status code
and a body.  The opaque `reqwest::Error` is modelled by its three renderings
used in the source: its `Display` text, and the `Debug` texts of
`err.status()` and `err.source()`.  Retrieving the body (`resp.text()`) may
itself fail with a rendered error. -/

inductive Transport where
  | https
  | http
deriving Repr, DecidableEq

/-- Outcome of one `reqwest::get` call. -/
inductive ConnAttempt where
  | failure (display : String) (statusDebug : String) (sourceDebug : String)
  | success (status : Nat) (text : Except String BodyText)
deriving Repr

/-- `StatusCode::is_success`: 200 ≤ code ≤ 299. -/
def isSuccessStatus (status : Nat) : Bool := 200 ≤ status && status ≤ 299

/-- `"Launcher successfully connected over https"`. -/
def connectedMsg : String := "Launcher successfully connected over https"

/-- `"Could not access over https, attempting http: {err}"`. -/
def attemptHttpMsg (errDisplay : String) : String :=
  "Could not access over https, attempting http: " ++ errDisplay

/-- `"Could not access over http, please check the server status on our discord: {err}"`. -/
def failedHttpMsg (errDisplay : String) : String :=
  "Could not access over http, please check the server status on our discord: " ++ errDisplay

/-- `"Error code: {:?}, cause: {:?}"` on the final connection error. -/
def bothFailedErrMsg (statusDebug sourceDebug : String) : String :=
  "Error code: " ++ statusDebug ++ ", cause: " ++ sourceDebug

/-- `"Error code: {:?}"` on a non-2xx response status. -/
def statusErrMsg (status : Nat) : String :=
  "Error code: " ++ toString status

/-- Result of a `get_version_info` call: the returned `Result`, the events
emitted via `emit_event`, and the transports actually fetched, in order. -/
structure GviOut where
  result : Except String VersionManifest
  events : List String
  attempts : List Transport
deriving Repr

/-- The shared tail of `get_version_info` after a response was obtained
(lines 80–92 of the source): non-2xx → error; `resp.text()` error → error;
parse error → error; otherwise stamp `https_worked` over the parsed data. -/
def afterResponse (events : List String) (attempts : List Transport)
    (https_worked : Bool) (status : Nat) (text : Except String BodyText) : GviOut :=
  if !isSuccessStatus status then
    { result := .error (statusErrMsg status), events, attempts }
  else
    match text with
    | .error e => { result := .error e, events, attempts }
    | .ok body =>
      match versionManifestFromStr body with
      | .error e => { result := .error e, events, attempts }
      | .ok data =>
        { result := .ok { data with https_worked := https_worked }, events, attempts }

/-- `get_version_info`, with the network as an oracle mapping each transport
to the outcome `reqwest::get` would produce for it.  First https is tried; on
connection-level failure http is tried; a connection-level failure of both
returns the final error. -/
def get_version_info (net : Transport → ConnAttempt) : GviOut :=
  match net .https with
  | .success status text =>
    afterResponse [connectedMsg] [.https] true status text
  | .failure display _ _ =>
    match net .http with
    | .success status text =>
      afterResponse [attemptHttpMsg display] [.https, .http] false status text
    | .failure display₂ statusDebug₂ sourceDebug₂ =>
      { result := .error (bothFailedErrMsg statusDebug₂ sourceDebug₂),
        events := [attemptHttpMsg display, failedHttpMsg display₂],
        attempts := [.https, .http] }

/-! ## `local_files_status`

`ensure_folder_exists` and `get_local_versions` live in `file_manager` and
are external collaborators; they are oracle parameters.  The source discards
each `ensure_folder_exists` result with `let _ = …`; the discarded outcomes
are returned here as an explicit call log next to the Rust return value. -/

def local_files_status (ensure_folder_exists : String → Except String Unit)
    (get_local_versions : Bool × LocalVersionManifest × String) :
    (Bool × LocalVersionManifest × String) × List (String × Except String Unit) :=
  let r₁ := ensure_folder_exists DOWNLOADS_FOLDER
  let r₂ := ensure_folder_exists BUILD_FOLDER
  let r₃ := ensure_folder_exists RUNTIME_FOLDER
  (get_local_versions,
   [(DOWNLOADS_FOLDER, r₁), (BUILD_FOLDER, r₂), (RUNTIME_FOLDER, r₃)])

/-! ## Build paths, downloads and existence checks -/

/-- `format!("{}/bymr-{}-{}.swf", BUILD_FOLDER, build_name, version)`. -/
def buildSwfPath (build_name version : String) : String :=
  BUILD_FOLDER ++ "/bymr-" ++ build_name ++ "-" ++ version ++ ".swf"

/-- The fixed variant list `[(stable, "stable"), (http, "http"), (local, "local")]`
built at the top of both `download_swfs` and `do_all_swfs_exist`. -/
def buildsToCheck (builds : Builds) : List (String × String) :=
  [(builds.stable, "stable"), (builds.http, "http"), (builds.«local», "local")]

/-- The loop of `download_swfs` over the remaining variants.  `dl` is the
`download_file` collaborator (target path, remote url, use_https); the second
component logs the variant names attempted, in order. -/
def download_swfs_loop (dl : String → String → Bool → Except String Unit)
    (version : String) (use_https : Bool) :
    List (String × String) → List String → Except String Unit × List String
  | [], log => (.ok (), log)
  | (build_url, build_name) :: rest, log =>
    let build_path := buildSwfPath build_name version
    match dl build_path build_url use_https with
    | .error err => (.error err, log ++ [build_name])
    | .ok () => download_swfs_loop dl version use_https rest (log ++ [build_name])

/-- `download_swfs`: download the three variants sequentially, aborting on the
first failure.  Returns the Rust `Result` and the log of attempted variants. -/
def download_swfs (dl : String → String → Bool → Except String Unit)
    (builds : Builds) (version : String) (use_https : Bool) :
    Except String Unit × List String :=
  download_swfs_loop dl version use_https (buildsToCheck builds) []

/-- A `PathBuf`/`&Path`: its byte content is either valid UTF-8 (carrying the
decoded string) or not.  `Path::new(s)` on a `&str` is always valid UTF-8;
`to_str()` returns `None` exactly on invalid UTF-8 — the case `unwrap`
panics on. -/
inductive RPath where
  | utf8 (s : String)
  | invalidUtf8
deriving Repr, DecidableEq

/-- `Path::new` applied to a `&str` constant. -/
def RPath.new (s : String) : RPath := .utf8 s

/-- `Path::join` with a `String` argument (relative, Unix separator). -/
def RPath.join : RPath → String → RPath
  | .utf8 s, t => .utf8 (s ++ "/" ++ t)
  | .invalidUtf8, _ => .invalidUtf8

/-- `Path::to_str`. -/
def RPath.toStr : RPath → Option String
  | .utf8 s => some s
  | .invalidUtf8 => none

/-- The loop of `do_all_swfs_exist` over the remaining variants.  `none`
models the panic of `binding.to_str().unwrap()`. -/
def do_all_swfs_exist_loop (file_exists : String → Bool) (version : String) :
    List (String × String) → Option Bool
  | [] => some true
  | (_, build_name) :: rest =>
    let binding := (RPath.new BUILD_FOLDER).join ("bymr-" ++ build_name ++ "-" ++ version ++ ".swf")
    match binding.toStr with
    | none => none
    | some file_path =>
      if !file_exists file_path then some false
      else do_all_swfs_exist_loop file_exists version rest

/-- `do_all_swfs_exist`: true iff every variant's file exists.  `file_exists`
is the filesystem collaborator; `none` models a panic of the `unwrap`. -/
def do_all_swfs_exist (file_exists : String → Bool) (builds : Builds)
    (version : String) : Option Bool :=
  do_all_swfs_exist_loop file_exists version (buildsToCheck builds)

/-- `download_runtimes`: a single download into the runtimes folder, where the
runtime's file name doubles as its remote reference. -/
def download_runtimes (dl : String → String → Bool → Except String Unit)
    (flash_runtime_file_name : String) (use_https : Bool) : Except String Unit :=
  let flash_file_path := RUNTIME_FOLDER ++ "/" ++ flash_runtime_file_name
  dl flash_file_path flash_runtime_file_name use_https

/-- `get_platform_flash_runtime`: select the runtime reference for a platform
identifier, failing on anything outside `windows`/`darwin`/`linux`. -/
def get_platform_flash_runtime (platform : String)
    (server_manifest : VersionManifest) : Except String String :=
  if platform = "windows" then .ok server_manifest.flash_runtimes.windows
  else if platform = "darwin" then .ok server_manifest.flash_runtimes.darwin
  else if platform = "linux" then .ok server_manifest.flash_runtimes.linux
  else .error ("unsupported platform: " ++ platform)

/-! ## Derived notions and helper lemmas -/

/-- Whether a `reqwest::get` outcome is a connection-level success (the `Ok`
branch of the source's `match`), regardless of the HTTP status inside. -/
def ConnAttempt.isConnSuccess : ConnAttempt → Bool
  | .success _ _ => true
  | .failure _ _ _ => false

/-- Flip the presence of the single file `p` in a filesystem state. -/
def flipFile (fs : String → Bool) (p : String) : String → Bool :=
  fun q => if q = p then !fs q else fs q

/-- A JSON object holding exactly the remote manifest schema's keys (the four
documented ones plus `httpsWorked`), with given field values. -/
def manifestDoc (cgv clv stable http loc windows darwin linux : String)
    (hw : Bool) : Json :=
  .obj [("currentGameVersion", .str cgv),
        ("currentLauncherVersion", .str clv),
        ("builds", .obj [("stable", .str stable), ("http", .str http),
                         ("local", .str loc)]),
        ("flashRuntimes", .obj [("windows", .str windows), ("darwin", .str darwin),
                                ("linux", .str linux)]),
        ("httpsWorked", .bool hw)]

theorem manifestDoc_parse (cgv clv stable http loc windows darwin linux : String)
    (hw : Bool) :
    VersionManifest.fromJson (manifestDoc cgv clv stable http loc windows darwin linux hw) =
      .ok ⟨cgv, clv, ⟨stable, http, loc⟩, ⟨windows, darwin, linux⟩, hw⟩ := rfl

theorem afterResponse_attempts (events : List String) (attempts : List Transport)
    (hw : Bool) (status : Nat) (text : Except String BodyText) :
    (afterResponse events attempts hw status text).attempts = attempts := by
  unfold afterResponse
  split
  · rfl
  · split
    · rfl
    · split <;> rfl

theorem afterResponse_ok_https_worked (events : List String)
    (attempts : List Transport) (hw : Bool) (status : Nat)
    (text : Except String BodyText) (m : VersionManifest)
    (h : (afterResponse events attempts hw status text).result = .ok m) :
    m.https_worked = hw := by
  unfold afterResponse at h
  split at h
  · exact absurd h (by simp)
  · split at h
    · exact absurd h (by simp)
    · split at h
      · exact absurd h (by simp)
      · simp only [Except.ok.injEq] at h
        subst h
        rfl

/-- The transport flag of any returned manifest equals the connection-level
outcome of the secure fetch. -/
theorem get_version_info_ok_https_worked (net : Transport → ConnAttempt)
    (m : VersionManifest) (h : (get_version_info net).result = .ok m) :
    m.https_worked = (net .https).isConnSuccess := by
  unfold get_version_info at h
  split at h
  case _ status text heq =>
    rw [heq, ConnAttempt.isConnSuccess]
    exact afterResponse_ok_https_worked _ _ _ _ _ _ h
  case _ display sd srcd heq =>
    rw [heq, ConnAttempt.isConnSuccess]
    split at h
    · exact afterResponse_ok_https_worked _ _ _ _ _ _ h
    · exact absurd h (by simp)

/-- The transports fetched: https alone when it connects, otherwise https
followed by the http fallback. -/
theorem get_version_info_attempts (net : Transport → ConnAttempt) :
    (get_version_info net).attempts =
      if (net .https).isConnSuccess then [Transport.https]
      else [Transport.https, Transport.http] := by
  unfold get_version_info
  split
  case _ status text heq =>
    rw [heq, ConnAttempt.isConnSuccess, afterResponse_attempts]
    rfl
  case _ display sd srcd heq =>
    rw [heq, ConnAttempt.isConnSuccess]
    split
    · rw [afterResponse_attempts]
      rfl
    · rfl

/-! ## Concrete fixtures used by witnesses and counterexamples -/

def exBuilds : Builds := ⟨"u1", "u2", "u3"⟩

def exRuntimes : FlashRuntimes := ⟨"w", "d", "l"⟩

/-- A full manifest document (all five external keys), `httpsWorked = false`. -/
def fullDoc : Json := manifestDoc "1.2.3" "2.0" "u1" "u2" "u3" "w" "d" "l" false

/-- A document with exactly the keys §6 of the spec documents for the remote
endpoint — and hence no `httpsWorked` key. -/
def exactKeysDoc : Json :=
  .obj [("currentGameVersion", .str "1.2.3"),
        ("currentLauncherVersion", .str "2.0"),
        ("builds", .obj [("stable", .str "u1"), ("http", .str "u2"),
                         ("local", .str "u3")]),
        ("flashRuntimes", .obj [("windows", .str "w"), ("darwin", .str "d"),
                                ("linux", .str "l")])]

def exManifestTrue : VersionManifest := ⟨"1.2.3", "2.0", exBuilds, exRuntimes, true⟩

/-- A network where the https fetch yields a response and http is never
reachable (it would fail if it were tried). -/
def netHttpsOk (status : Nat) (text : Except String BodyText) :
    Transport → ConnAttempt :=
  fun t =>
    match t with
    | .https => .success status text
    | .http => .failure "unused" "None" "None"

/-- A network where the https fetch fails at the connection level and the
http fetch produces the given outcome. -/
def netHttpsDown (httpOutcome : ConnAttempt) : Transport → ConnAttempt :=
  fun t =>
    match t with
    | .https => .failure "connection refused" "None" "Some(hyper error)"
    | .http => httpOutcome

/-! ## The claims -/

/-- C1: a manifest returned by `get_version_info` has `https_worked = true`
exactly when the secure fetch succeeded at the connection level; in that case
the insecure transport is never fetched; and a manifest obtained through the
insecure fallback carries `https_worked = false`. -/
theorem C1_https_flag_iff_secure_success (net : Transport → ConnAttempt)
    (m : VersionManifest) (h : (get_version_info net).result = .ok m) :
    (m.https_worked = true ↔ (net .https).isConnSuccess = true) ∧
    ((net .https).isConnSuccess = true →
      (get_version_info net).attempts = [Transport.https]) ∧
    ((net .https).isConnSuccess = false → m.https_worked = false) := by
  have hs := get_version_info_ok_https_worked net m h
  have ha := get_version_info_attempts net
  refine ⟨by rw [hs], fun hc => ?_, fun hc => by rw [hs, hc]⟩
  rw [ha, hc]
  rfl

theorem C1_witness :
    (exManifestTrue.https_worked = true ↔
      ((netHttpsOk 200 (.ok (.json fullDoc))) .https).isConnSuccess = true) ∧
    (((netHttpsOk 200 (.ok (.json fullDoc))) .https).isConnSuccess = true →
      (get_version_info (netHttpsOk 200 (.ok (.json fullDoc)))).attempts =
        [Transport.https]) ∧
    (((netHttpsOk 200 (.ok (.json fullDoc))) .https).isConnSuccess = false →
      exManifestTrue.https_worked = false) :=
  C1_https_flag_iff_secure_success (netHttpsOk 200 (.ok (.json fullDoc)))
    exManifestTrue rfl

/-- C2: once either transport has produced a response, a non-2xx status fails
the call with an error carrying that status code and no further transport is
fetched; and the http fallback is only ever fetched after a connection-level
https failure. -/
theorem C2_non2xx_is_fatal (net : Transport → ConnAttempt) :
    (∀ status text, net .https = .success status text →
      isSuccessStatus status = false →
      (get_version_info net).result = .error (statusErrMsg status) ∧
      (get_version_info net).attempts = [Transport.https]) ∧
    (∀ d sd srcd status text, net .https = .failure d sd srcd →
      net .http = .success status text →
      isSuccessStatus status = false →
      (get_version_info net).result = .error (statusErrMsg status) ∧
      (get_version_info net).attempts = [Transport.https, Transport.http]) ∧
    (Transport.http ∈ (get_version_info net).attempts →
      ∃ d sd srcd, net .https = .failure d sd srcd) := by
  refine ⟨fun status text h₁ h₂ => ?_, fun d sd srcd status text h₁ h₂ h₃ => ?_, fun hmem => ?_⟩
  · unfold get_version_info
    rw [h₁]
    exact ⟨by simp [afterResponse, h₂], afterResponse_attempts _ _ _ _ _⟩
  · unfold get_version_info
    rw [h₁, h₂]
    exact ⟨by simp [afterResponse, h₃], afterResponse_attempts _ _ _ _ _⟩
  · rw [get_version_info_attempts] at hmem
    cases heq : net .https with
    | failure d sd srcd => exact ⟨d, sd, srcd, rfl⟩
    | success status text =>
      rw [heq] at hmem
      simp [ConnAttempt.isConnSuccess] at hmem

theorem C2_witness :
    ((get_version_info (netHttpsOk 404 (.ok (.json fullDoc)))).result =
        .error (statusErrMsg 404) ∧
      (get_version_info (netHttpsOk 404 (.ok (.json fullDoc)))).attempts =
        [Transport.https]) ∧
    ((get_version_info (netHttpsDown (.success 500 (.ok (.json fullDoc))))).result =
        .error (statusErrMsg 500) ∧
      (get_version_info (netHttpsDown (.success 500 (.ok (.json fullDoc))))).attempts =
        [Transport.https, Transport.http]) :=
  ⟨(C2_non2xx_is_fatal (netHttpsOk 404 (.ok (.json fullDoc)))).1 404
      (.ok (.json fullDoc)) rfl (by decide),
   (C2_non2xx_is_fatal (netHttpsDown (.success 500 (.ok (.json fullDoc))))).2.1
      "connection refused" "None" "Some(hyper error)" 500 (.ok (.json fullDoc))
      rfl rfl (by decide)⟩

/-- C10: the stamped transport flag does not depend on the response body.
For any two calls whose secure fetch has the same connection-level outcome,
whenever both return manifests (in particular for two bodies differing only
in their `httpsWorked` JSON value), the returned flags are equal: line 91 of
the source overwrites whatever value parsing produced. -/
theorem C10_flag_independent_of_body (net₁ net₂ : Transport → ConnAttempt)
    (m₁ m₂ : VersionManifest)
    (hshape : (net₁ .https).isConnSuccess = (net₂ .https).isConnSuccess)
    (h₁ : (get_version_info net₁).result = .ok m₁)
    (h₂ : (get_version_info net₂).result = .ok m₂) :
    m₁.https_worked = m₂.https_worked := by
  rw [get_version_info_ok_https_worked net₁ m₁ h₁,
      get_version_info_ok_https_worked net₂ m₂ h₂, hshape]

theorem C10_witness :
    exManifestTrue.https_worked =
      (VersionManifest.mk "9.9.9" "2.0" exBuilds exRuntimes true).https_worked :=
  C10_flag_independent_of_body
    (netHttpsOk 200 (.ok (.json fullDoc)))
    (netHttpsOk 200 (.ok (.json (manifestDoc "9.9.9" "2.0" "u1" "u2" "u3" "w" "d" "l" true))))
    exManifestTrue ⟨"9.9.9", "2.0", exBuilds, exRuntimes, true⟩ rfl rfl rfl

/-- C3 fails as stated: the derived `Deserialize` also requires the
`httpsWorked` field (no `#[serde(default)]` anywhere), so a 2xx body holding
exactly the keys the endpoint is documented to return — and nothing else —
makes the call fail with a missing-field parse error instead of succeeding. -/
theorem C3_counterexample :
    (get_version_info (netHttpsOk 200 (.ok (.json exactKeysDoc)))).result =
      .error (missingFieldMsg "httpsWorked") := rfl

/-- C3 (amended): a 2xx body that is a JSON document holding the documented
keys plus a boolean `httpsWorked` key parses successfully into a manifest
whose fields equal the JSON values, whichever transport delivered it — the
transport flag then stamped to true over the secure transport and to false
over the insecure fallback; any 2xx body whose parse fails, on either
transport, makes the call fail with that parse error, with no retry and no
further transport attempt. -/
theorem C3_schema_parse (net : Transport → ConnAttempt) :
    (∀ status cgv clv s h l w d li hw,
      net .https = .success status (.ok (.json (manifestDoc cgv clv s h l w d li hw))) →
      isSuccessStatus status = true →
      (get_version_info net).result =
        .ok ⟨cgv, clv, ⟨s, h, l⟩, ⟨w, d, li⟩, true⟩) ∧
    (∀ fd fsd fsrcd status cgv clv s h l w d li hw,
      net .https = .failure fd fsd fsrcd →
      net .http = .success status (.ok (.json (manifestDoc cgv clv s h l w d li hw))) →
      isSuccessStatus status = true →
      (get_version_info net).result =
        .ok ⟨cgv, clv, ⟨s, h, l⟩, ⟨w, d, li⟩, false⟩) ∧
    (∀ status body e,
      net .https = .success status (.ok body) →
      isSuccessStatus status = true →
      versionManifestFromStr body = .error e →
      (get_version_info net).result = .error e ∧
      (get_version_info net).attempts = [Transport.https]) ∧
    (∀ fd fsd fsrcd status body e,
      net .https = .failure fd fsd fsrcd →
      net .http = .success status (.ok body) →
      isSuccessStatus status = true →
      versionManifestFromStr body = .error e →
      (get_version_info net).result = .error e ∧
      (get_version_info net).attempts = [Transport.https, Transport.http]) := by
  refine ⟨?_, ?_, ?_, ?_⟩
  · intro status cgv clv s h l w d li hw h₁ h₂
    unfold get_version_info
    rw [h₁]
    simp [afterResponse, h₂, versionManifestFromStr, manifestDoc_parse]
  · intro fd fsd fsrcd status cgv clv s h l w d li hw h₀ h₁ h₂
    unfold get_version_info
    rw [h₀, h₁]
    simp [afterResponse, h₂, versionManifestFromStr, manifestDoc_parse]
  · intro status body e h₁ h₂ h₃
    unfold get_version_info
    rw [h₁]
    exact ⟨by simp [afterResponse, h₂, h₃], afterResponse_attempts _ _ _ _ _⟩
  · intro fd fsd fsrcd status body e h₀ h₁ h₂ h₃
    unfold get_version_info
    rw [h₀, h₁]
    exact ⟨by simp [afterResponse, h₂, h₃], afterResponse_attempts _ _ _ _ _⟩

theorem C3_witness :
    ((get_version_info (netHttpsOk 200 (.ok (.json fullDoc)))).result =
      .ok ⟨"1.2.3", "2.0", ⟨"u1", "u2", "u3"⟩, ⟨"w", "d", "l"⟩, true⟩) ∧
    ((get_version_info (netHttpsDown (.success 200 (.ok (.json fullDoc))))).result =
      .ok ⟨"1.2.3", "2.0", ⟨"u1", "u2", "u3"⟩, ⟨"w", "d", "l"⟩, false⟩) ∧
    ((get_version_info (netHttpsOk 200 (.ok (.json exactKeysDoc)))).result =
        .error (missingFieldMsg "httpsWorked") ∧
      (get_version_info (netHttpsOk 200 (.ok (.json exactKeysDoc)))).attempts =
        [Transport.https]) ∧
    ((get_version_info (netHttpsDown (.success 200 (.ok (.json exactKeysDoc))))).result =
        .error (missingFieldMsg "httpsWorked") ∧
      (get_version_info (netHttpsDown (.success 200 (.ok (.json exactKeysDoc))))).attempts =
        [Transport.https, Transport.http]) :=
  ⟨(C3_schema_parse (netHttpsOk 200 (.ok (.json fullDoc)))).1 200
      "1.2.3" "2.0" "u1" "u2" "u3" "w" "d" "l" false rfl (by decide),
   (C3_schema_parse (netHttpsDown (.success 200 (.ok (.json fullDoc))))).2.1
      "connection refused" "None" "Some(hyper error)" 200
      "1.2.3" "2.0" "u1" "u2" "u3" "w" "d" "l" false rfl rfl (by decide),
   (C3_schema_parse (netHttpsOk 200 (.ok (.json exactKeysDoc)))).2.2.1 200
      (.json exactKeysDoc) (missingFieldMsg "httpsWorked") rfl (by decide) rfl,
   (C3_schema_parse (netHttpsDown (.success 200 (.ok (.json exactKeysDoc))))).2.2.2
      "connection refused" "None" "Some(hyper error)" 200
      (.json exactKeysDoc) (missingFieldMsg "httpsWorked") rfl rfl (by decide) rfl⟩

/-- C5: `get_platform_flash_runtime` returns exactly the matching field of the
manifest's runtime record for the three recognized platform identifiers, and
fails with an unsupported-platform error naming the platform for every other
identifier.  (In this embedding it is a pure function, so it has no side
effects by construction.) -/
theorem C5_platform_runtime_selection (platform : String) (m : VersionManifest) :
    get_platform_flash_runtime "windows" m = .ok m.flash_runtimes.windows ∧
    get_platform_flash_runtime "darwin" m = .ok m.flash_runtimes.darwin ∧
    get_platform_flash_runtime "linux" m = .ok m.flash_runtimes.linux ∧
    (platform ∉ (["windows", "darwin", "linux"] : List String) →
      get_platform_flash_runtime platform m =
        .error ("unsupported platform: " ++ platform)) := by
  refine ⟨rfl, rfl, rfl, fun hn => ?_⟩
  simp only [List.mem_cons, List.not_mem_nil, or_false, not_or] at hn
  obtain ⟨h₁, h₂, h₃⟩ := hn
  simp [get_platform_flash_runtime, h₁, h₂, h₃]

theorem C5_witness :
    (get_platform_flash_runtime "windows" exManifestTrue =
      .ok exManifestTrue.flash_runtimes.windows ∧
    get_platform_flash_runtime "darwin" exManifestTrue =
      .ok exManifestTrue.flash_runtimes.darwin ∧
    get_platform_flash_runtime "linux" exManifestTrue =
      .ok exManifestTrue.flash_runtimes.linux ∧
    ("amiga" ∉ (["windows", "darwin", "linux"] : List String) →
      get_platform_flash_runtime "amiga" exManifestTrue =
        .error ("unsupported platform: " ++ "amiga"))) ∧
    "amiga" ∉ (["windows", "darwin", "linux"] : List String) :=
  ⟨C5_platform_runtime_selection "amiga" exManifestTrue, by decide⟩

/-- C7: `download_swfs` tries the variants in the fixed order stable, http,
local, aborts on the first collaborator failure propagating its error
unchanged — every earlier variant attempted, no later one — and succeeds when
all three downloads succeed. -/
theorem C7_download_swfs_sequential
    (dl : String → String → Bool → Except String Unit)
    (builds : Builds) (version : String) (use_https : Bool) :
    (∀ e, dl (buildSwfPath "stable" version) builds.stable use_https = .error e →
      download_swfs dl builds version use_https = (.error e, ["stable"])) ∧
    (∀ e, dl (buildSwfPath "stable" version) builds.stable use_https = .ok () →
      dl (buildSwfPath "http" version) builds.http use_https = .error e →
      download_swfs dl builds version use_https = (.error e, ["stable", "http"])) ∧
    (∀ e, dl (buildSwfPath "stable" version) builds.stable use_https = .ok () →
      dl (buildSwfPath "http" version) builds.http use_https = .ok () →
      dl (buildSwfPath "local" version) builds.«local» use_https = .error e →
      download_swfs dl builds version use_https =
        (.error e, ["stable", "http", "local"])) ∧
    (dl (buildSwfPath "stable" version) builds.stable use_https = .ok () →
      dl (buildSwfPath "http" version) builds.http use_https = .ok () →
      dl (buildSwfPath "local" version) builds.«local» use_https = .ok () →
      download_swfs dl builds version use_https =
        (.ok (), ["stable", "http", "local"])) := by
  refine ⟨fun e h₁ => ?_, fun e h₁ h₂ => ?_, fun e h₁ h₂ h₃ => ?_, fun h₁ h₂ h₃ => ?_⟩
  · simp [download_swfs, download_swfs_loop, buildsToCheck, h₁]
  · simp [download_swfs, download_swfs_loop, buildsToCheck, h₁, h₂]
  · simp [download_swfs, download_swfs_loop, buildsToCheck, h₁, h₂, h₃]
  · simp [download_swfs, download_swfs_loop, buildsToCheck, h₁, h₂, h₃]

/-- A download collaborator that fails exactly on the second variant's remote
reference. -/
def dlFailHttp : String → String → Bool → Except String Unit :=
  fun _ url _ => if url = "u2" then .error "boom" else .ok ()

theorem C7_witness :
    download_swfs dlFailHttp exBuilds "1.2.3" true =
      (.error "boom", ["stable", "http"]) :=
  (C7_download_swfs_sequential dlFailHttp exBuilds "1.2.3" true).2.1 "boom"
    rfl rfl

/-- The local-status triple returned by the `get_local_versions` collaborator
in the fixtures. -/
def glvEx : Bool × LocalVersionManifest × String :=
  (false, default, "no local version manifest found")

/-- C8 fails as stated: the source discards every `ensure_folder_exists`
result with `let _ = …`, so a failure that is not "directory already exists"
(here a permission-denied style error on all three directories) is swallowed
just the same — the caller receives exactly the `get_local_versions` triple,
identical to a run where every directory creation succeeded, with no error
value anywhere. -/
theorem C8_counterexample :
    (local_files_status (fun _ => .error "permission denied") glvEx).1 = glvEx ∧
    (local_files_status (fun _ => .error "permission denied") glvEx).1 =
      (local_files_status (fun _ => .ok ()) glvEx).1 :=
  ⟨rfl, rfl⟩

/-- C8 (amended): `local_files_status` ignores every outcome of
`ensure_folder_exists` — not only "directory already exists" ones.  Its
return value is exactly the `get_local_versions` triple whatever the three
discarded outcomes were, though all three directories are still attempted in
order. -/
theorem C8_all_folder_outcomes_ignored
    (ensure_folder_exists : String → Except String Unit)
    (get_local_versions : Bool × LocalVersionManifest × String) :
    (local_files_status ensure_folder_exists get_local_versions).1 =
      get_local_versions ∧
    (local_files_status ensure_folder_exists get_local_versions).2 =
      [(DOWNLOADS_FOLDER, ensure_folder_exists DOWNLOADS_FOLDER),
       (BUILD_FOLDER, ensure_folder_exists BUILD_FOLDER),
       (RUNTIME_FOLDER, ensure_folder_exists RUNTIME_FOLDER)] :=
  ⟨rfl, rfl⟩

/-! ## Parsing requires every field: helper lemmas -/

theorem except_ok_bind {ε α β : Type} (a : α) (f : α → Except ε β) :
    (Except.ok a >>= f) = f a := rfl

theorem except_error_bind {ε α β : Type} (e : ε) (f : α → Except ε β) :
    ((Except.error e : Except ε α) >>= f) = Except.error e := rfl

/-- A successful `Builds.fromFields` run saw every field key that its slot
did not already hold. -/
theorem builds_fromFields_ok_keys (fields : List (String × Json)) :
    ∀ (stable? http? local? : Option String) (b : Builds),
      Builds.fromFields fields stable? http? local? = .ok b →
      ("stable" ∈ fields.map Prod.fst ∨ stable?.isSome = true) ∧
      ("http" ∈ fields.map Prod.fst ∨ http?.isSome = true) ∧
      ("local" ∈ fields.map Prod.fst ∨ local?.isSome = true) := by
  induction fields with
  | nil =>
    intro stable? http? local? b h
    cases stable? <;> cases http? <;> cases local? <;>
      simp_all [Builds.fromFields, except_ok_bind, except_error_bind]
  | cons kv rest ih =>
    obtain ⟨k, v⟩ := kv
    intro stable? http? local? b h
    simp only [Builds.fromFields] at h
    by_cases hk₁ : k = "stable"
    · rw [if_pos hk₁] at h
      cases stable? with
      | some s => simp at h
      | none =>
        cases hg : getStr v with
        | error e => rw [hg, except_error_bind] at h; exact absurd h (by simp)
        | ok s =>
          simp only [hg, except_ok_bind] at h
          have hrec := ih (some s) http? local? b h
          subst hk₁
          refine ⟨Or.inl (by simp), ?_, ?_⟩
          · rcases hrec.2.1 with hm | hs
            · exact Or.inl (by simp [hm])
            · exact Or.inr hs
          · rcases hrec.2.2 with hm | hs
            · exact Or.inl (by simp [hm])
            · exact Or.inr hs
    · rw [if_neg hk₁] at h
      by_cases hk₂ : k = "http"
      · rw [if_pos hk₂] at h
        cases http? with
        | some s => simp at h
        | none =>
          cases hg : getStr v with
          | error e => rw [hg, except_error_bind] at h; exact absurd h (by simp)
          | ok s =>
            simp only [hg, except_ok_bind] at h
            have hrec := ih stable? (some s) local? b h
            subst hk₂
            refine ⟨?_, Or.inl (by simp), ?_⟩
            · rcases hrec.1 with hm | hs
              · exact Or.inl (by simp [hm])
              · exact Or.inr hs
            · rcases hrec.2.2 with hm | hs
              · exact Or.inl (by simp [hm])
              · exact Or.inr hs
      · rw [if_neg hk₂] at h
        by_cases hk₃ : k = "local"
        · rw [if_pos hk₃] at h
          cases local? with
          | some s => simp at h
          | none =>
            cases hg : getStr v with
            | error e => rw [hg, except_error_bind] at h; exact absurd h (by simp)
            | ok s =>
              simp only [hg, except_ok_bind] at h
              have hrec := ih stable? http? (some s) b h
              subst hk₃
              refine ⟨?_, ?_, Or.inl (by simp)⟩
              · rcases hrec.1 with hm | hs
                · exact Or.inl (by simp [hm])
                · exact Or.inr hs
              · rcases hrec.2.1 with hm | hs
                · exact Or.inl (by simp [hm])
                · exact Or.inr hs
        · rw [if_neg hk₃] at h
          have hrec := ih stable? http? local? b h
          refine ⟨?_, ?_, ?_⟩
          · rcases hrec.1 with hm | hs
            · exact Or.inl (by simp [hm])
            · exact Or.inr hs
          · rcases hrec.2.1 with hm | hs
            · exact Or.inl (by simp [hm])
            · exact Or.inr hs
          · rcases hrec.2.2 with hm | hs
            · exact Or.inl (by simp [hm])
            · exact Or.inr hs

/-- A successful `FlashRuntimes.fromFields` run saw every field key that its
slot did not already hold. -/
theorem flashRuntimes_fromFields_ok_keys (fields : List (String × Json)) :
    ∀ (windows? darwin? linux? : Option String) (fr : FlashRuntimes),
      FlashRuntimes.fromFields fields windows? darwin? linux? = .ok fr →
      ("windows" ∈ fields.map Prod.fst ∨ windows?.isSome = true) ∧
      ("darwin" ∈ fields.map Prod.fst ∨ darwin?.isSome = true) ∧
      ("linux" ∈ fields.map Prod.fst ∨ linux?.isSome = true) := by
  induction fields with
  | nil =>
    intro windows? darwin? linux? fr h
    cases windows? <;> cases darwin? <;> cases linux? <;>
      simp_all [FlashRuntimes.fromFields, except_ok_bind, except_error_bind]
  | cons kv rest ih =>
    obtain ⟨k, v⟩ := kv
    intro windows? darwin? linux? fr h
    simp only [FlashRuntimes.fromFields] at h
    by_cases hk₁ : k = "windows"
    · rw [if_pos hk₁] at h
      cases windows? with
      | some s => simp at h
      | none =>
        cases hg : getStr v with
        | error e => rw [hg, except_error_bind] at h; exact absurd h (by simp)
        | ok s =>
          simp only [hg, except_ok_bind] at h
          have hrec := ih (some s) darwin? linux? fr h
          subst hk₁
          refine ⟨Or.inl (by simp), ?_, ?_⟩
          · rcases hrec.2.1 with hm | hs
            · exact Or.inl (by simp [hm])
            · exact Or.inr hs
          · rcases hrec.2.2 with hm | hs
            · exact Or.inl (by simp [hm])
            · exact Or.inr hs
    · rw [if_neg hk₁] at h
      by_cases hk₂ : k = "darwin"
      · rw [if_pos hk₂] at h
        cases darwin? with
        | some s => simp at h
        | none =>
          cases hg : getStr v with
          | error e => rw [hg, except_error_bind] at h; exact absurd h (by simp)
          | ok s =>
            simp only [hg, except_ok_bind] at h
            have hrec := ih windows? (some s) linux? fr h
            subst hk₂
            refine ⟨?_, Or.inl (by simp), ?_⟩
            · rcases hrec.1 with hm | hs
              · exact Or.inl (by simp [hm])
              · exact Or.inr hs
            · rcases hrec.2.2 with hm | hs
              · exact Or.inl (by simp [hm])
              · exact Or.inr hs
      · rw [if_neg hk₂] at h
        by_cases hk₃ : k = "linux"
        · rw [if_pos hk₃] at h
          cases linux? with
          | some s => simp at h
          | none =>
            cases hg : getStr v with
            | error e => rw [hg, except_error_bind] at h; exact absurd h (by simp)
            | ok s =>
              simp only [hg, except_ok_bind] at h
              have hrec := ih windows? darwin? (some s) fr h
              subst hk₃
              refine ⟨?_, ?_, Or.inl (by simp)⟩
              · rcases hrec.1 with hm | hs
                · exact Or.inl (by simp [hm])
                · exact Or.inr hs
              · rcases hrec.2.1 with hm | hs
                · exact Or.inl (by simp [hm])
                · exact Or.inr hs
        · rw [if_neg hk₃] at h
          have hrec := ih windows? darwin? linux? fr h
          refine ⟨?_, ?_, ?_⟩
          · rcases hrec.1 with hm | hs
            · exact Or.inl (by simp [hm])
            · exact Or.inr hs
          · rcases hrec.2.1 with hm | hs
            · exact Or.inl (by simp [hm])
            · exact Or.inr hs
          · rcases hrec.2.2 with hm | hs
            · exact Or.inl (by simp [hm])
            · exact Or.inr hs

/-- C4 fails as stated: an absent field is not default-initialized to the
empty string — the derived `Deserialize` has no `#[serde(default)]`, so a
`Builds` document lacking `local` (and a `FlashRuntimes` document lacking
`darwin`) fails to parse with a missing-field error instead of succeeding
with an empty-string field. -/
theorem C4_counterexample :
    Builds.fromJson (.obj [("stable", .str "a"), ("http", .str "b")]) =
      .error (missingFieldMsg "local") ∧
    FlashRuntimes.fromJson (.obj [("windows", .str "w")]) =
      .error (missingFieldMsg "darwin") := ⟨rfl, rfl⟩

/-- C4 (amended): each of the three named fields of `Builds` and
`FlashRuntimes` is required: a successful parse implies every one of the
three keys occurred in the document (equivalently, a document lacking any of
them fails to parse — absence is a parse error, not a defaulted empty
string), and a document holding exactly the three keys with string values
parses to the record with exactly those values, so a successfully parsed
record always has all three fields present. -/
theorem C4_all_three_fields_required :
    (∀ fields b, Builds.fromJson (.obj fields) = .ok b →
      "stable" ∈ fields.map Prod.fst ∧ "http" ∈ fields.map Prod.fst ∧
        "local" ∈ fields.map Prod.fst) ∧
    (∀ fields fr, FlashRuntimes.fromJson (.obj fields) = .ok fr →
      "windows" ∈ fields.map Prod.fst ∧ "darwin" ∈ fields.map Prod.fst ∧
        "linux" ∈ fields.map Prod.fst) ∧
    (∀ a b c, Builds.fromJson
      (.obj [("stable", .str a), ("http", .str b), ("local", .str c)]) =
        .ok ⟨a, b, c⟩) ∧
    (∀ a b c, FlashRuntimes.fromJson
      (.obj [("windows", .str a), ("darwin", .str b), ("linux", .str c)]) =
        .ok ⟨a, b, c⟩) := by
  refine ⟨fun fields b h => ?_, fun fields fr h => ?_,
    fun a b c => rfl, fun a b c => rfl⟩
  · simpa using builds_fromFields_ok_keys fields none none none b h
  · simpa using flashRuntimes_fromFields_ok_keys fields none none none fr h

theorem C4_witness :
    ("stable" ∈ ([("stable", Json.str "a"), ("http", Json.str "b"),
        ("local", Json.str "c")]).map Prod.fst ∧
      "http" ∈ ([("stable", Json.str "a"), ("http", Json.str "b"),
        ("local", Json.str "c")]).map Prod.fst ∧
      "local" ∈ ([("stable", Json.str "a"), ("http", Json.str "b"),
        ("local", Json.str "c")]).map Prod.fst) ∧
    Builds.fromJson (.obj [("stable", .str "a"), ("http", .str "b"),
      ("local", .str "c")]) = .ok ⟨"a", "b", "c"⟩ :=
  ⟨C4_all_three_fields_required.1
      [("stable", Json.str "a"), ("http", Json.str "b"), ("local", Json.str "c")]
      ⟨"a", "b", "c"⟩ rfl,
   C4_all_three_fields_required.2.2.1 "a" "b" "c"⟩

/-! ## Existence checks: helper lemmas for C6 and C9 -/

/-- The path the `do_all_swfs_exist` loop builds through `Path::join` is the
same string that `download_swfs` formats directly. -/
theorem loop_toStr (name version : String) :
    ((RPath.new BUILD_FOLDER).join ("bymr-" ++ name ++ "-" ++ version ++ ".swf")).toStr =
      some (buildSwfPath name version) := by
  show some (BUILD_FOLDER ++ "/" ++ ("bymr-" ++ name ++ "-" ++ version ++ ".swf")) = _
  simp only [← String.append_assoc]
  rfl

theorem buildSwfPath_length (name version : String) :
    (buildSwfPath name version).length = 30 + name.length + version.length := by
  simp only [buildSwfPath, BUILD_FOLDER, String.length_append]
  have h₁ : ("bymr-downloads/swfs" : String).length = 19 := rfl
  have h₂ : ("/bymr-" : String).length = 6 := rfl
  have h₃ : ("-" : String).length = 1 := rfl
  have h₄ : (".swf" : String).length = 4 := rfl
  rw [h₁, h₂, h₃, h₄]
  omega

/-- The three probed files are three distinct paths, whatever the version. -/
theorem buildSwfPath_pairwise_ne (version : String) :
    buildSwfPath "stable" version ≠ buildSwfPath "http" version ∧
    buildSwfPath "stable" version ≠ buildSwfPath "local" version ∧
    buildSwfPath "http" version ≠ buildSwfPath "local" version := by
  have hs : ("stable" : String).length = 6 := rfl
  have hh : ("http" : String).length = 4 := rfl
  have hl : ("local" : String).length = 5 := rfl
  refine ⟨fun h => ?_, fun h => ?_, fun h => ?_⟩ <;>
  · have h' := congrArg String.length h
    rw [buildSwfPath_length, buildSwfPath_length] at h'
    simp only [hs, hh, hl] at h'
    omega

/-- Evaluation of `do_all_swfs_exist`: the `unwrap` never panics and the
result is the conjunction of the three files' presence. -/
theorem do_all_swfs_exist_eq (fs : String → Bool) (builds : Builds)
    (version : String) :
    do_all_swfs_exist fs builds version =
      some (fs (buildSwfPath "stable" version) &&
        (fs (buildSwfPath "http" version) && fs (buildSwfPath "local" version))) := by
  simp only [do_all_swfs_exist, buildsToCheck, do_all_swfs_exist_loop, loop_toStr]
  cases h₁ : fs (buildSwfPath "stable" version) <;>
    cases h₂ : fs (buildSwfPath "http" version) <;>
      cases h₃ : fs (buildSwfPath "local" version) <;>
        simp [h₁, h₂, h₃]

/-- A filesystem with no files at all. -/
def fsNone : String → Bool := fun _ => false

/-- A filesystem where every file exists. -/
def fsAll : String → Bool := fun _ => true

/-- C6 fails as stated in its flip part: starting from a state with no files
at all, flipping the presence of the single file
`bymr-downloads/swfs/bymr-local-1.2.3.swf` leaves the result `false` — it
does not flip — because the other two files are still missing. -/
theorem C6_counterexample :
    do_all_swfs_exist fsNone exBuilds "1.2.3" = some false ∧
    do_all_swfs_exist (flipFile fsNone (buildSwfPath "local" "1.2.3"))
      exBuilds "1.2.3" = some false := by
  exact ⟨rfl, by decide⟩

/-- C6 (amended): `do_all_swfs_exist` returns true iff all three files
`bymr-stable-<version>.swf`, `bymr-http-<version>.swf`,
`bymr-local-<version>.swf` exist in `bymr-downloads/swfs`; and flipping the
presence of any single one of the three files flips the result provided the
other two files are present. -/
theorem C6_all_exist_iff_and_flip (fs : String → Bool) (builds : Builds)
    (version : String) :
    (do_all_swfs_exist fs builds version = some true ↔
      (fs (buildSwfPath "stable" version) = true ∧
        fs (buildSwfPath "http" version) = true ∧
        fs (buildSwfPath "local" version) = true)) ∧
    (∀ name, name ∈ (["stable", "http", "local"] : List String) →
      (∀ other, other ∈ (["stable", "http", "local"] : List String) →
        other ≠ name → fs (buildSwfPath other version) = true) →
      do_all_swfs_exist (flipFile fs (buildSwfPath name version)) builds version =
        some (!fs (buildSwfPath name version))) := by
  obtain ⟨hsh, hsl, hhl⟩ := buildSwfPath_pairwise_ne version
  constructor
  · rw [do_all_swfs_exist_eq]
    constructor
    · intro h
      have := Option.some.inj h
      simp_all
    · intro ⟨h₁, h₂, h₃⟩
      rw [h₁, h₂, h₃]
      rfl
  · intro name hname hothers
    rw [do_all_swfs_exist_eq]
    have hmem : name = "stable" ∨ name = "http" ∨ name = "local" := by
      simpa using hname
    rcases hmem with hn | hn | hn <;> subst hn
    · have h₂ := hothers "http" (by simp) (by decide)
      have h₃ := hothers "local" (by simp) (by decide)
      rw [show flipFile fs (buildSwfPath "stable" version)
            (buildSwfPath "stable" version) = !fs (buildSwfPath "stable" version)
          from if_pos rfl,
        show flipFile fs (buildSwfPath "stable" version)
            (buildSwfPath "http" version) = fs (buildSwfPath "http" version)
          from if_neg (fun hc => hsh hc.symm),
        show flipFile fs (buildSwfPath "stable" version)
            (buildSwfPath "local" version) = fs (buildSwfPath "local" version)
          from if_neg (fun hc => hsl hc.symm),
        h₂, h₃]
      simp
    · have h₁ := hothers "stable" (by simp) (by decide)
      have h₃ := hothers "local" (by simp) (by decide)
      rw [show flipFile fs (buildSwfPath "http" version)
            (buildSwfPath "stable" version) = fs (buildSwfPath "stable" version)
          from if_neg hsh,
        show flipFile fs (buildSwfPath "http" version)
            (buildSwfPath "http" version) = !fs (buildSwfPath "http" version)
          from if_pos rfl,
        show flipFile fs (buildSwfPath "http" version)
            (buildSwfPath "local" version) = fs (buildSwfPath "local" version)
          from if_neg (fun hc => hhl hc.symm),
        h₁, h₃]
      cases fs (buildSwfPath "http" version) <;> rfl
    · have h₁ := hothers "stable" (by simp) (by decide)
      have h₂ := hothers "http" (by simp) (by decide)
      rw [show flipFile fs (buildSwfPath "local" version)
            (buildSwfPath "stable" version) = fs (buildSwfPath "stable" version)
          from if_neg hsl,
        show flipFile fs (buildSwfPath "local" version)
            (buildSwfPath "http" version) = fs (buildSwfPath "http" version)
          from if_neg hhl,
        show flipFile fs (buildSwfPath "local" version)
            (buildSwfPath "local" version) = !fs (buildSwfPath "local" version)
          from if_pos rfl,
        h₁, h₂]
      cases fs (buildSwfPath "local" version) <;> rfl

theorem C6_witness :
    do_all_swfs_exist (flipFile fsAll (buildSwfPath "stable" "1.2.3"))
        exBuilds "1.2.3" =
      some (!fsAll (buildSwfPath "stable" "1.2.3")) ∧
    (do_all_swfs_exist fsAll exBuilds "1.2.3" = some true ↔
      (fsAll (buildSwfPath "stable" "1.2.3") = true ∧
        fsAll (buildSwfPath "http" "1.2.3") = true ∧
        fsAll (buildSwfPath "local" "1.2.3") = true)) :=
  ⟨(C6_all_exist_iff_and_flip fsAll exBuilds "1.2.3").2 "stable" (by simp)
      (fun other ho hne => rfl),
   (C6_all_exist_iff_and_flip fsAll exBuilds "1.2.3").1⟩

/-- C9: the `binding.to_str().unwrap()` inside `do_all_swfs_exist` never
panics — for every filesystem state, builds record and version string the
function returns a value, because the probed path is joined from `&str`
inputs and hence valid UTF-8.  (Every other operation of the layer is a total
function of its oracles in this embedding.) -/
theorem C9_do_all_swfs_exist_never_panics (file_exists : String → Bool)
    (builds : Builds) (version : String) :
    ∃ b, do_all_swfs_exist file_exists builds version = some b :=
  ⟨_, do_all_swfs_exist_eq file_exists builds version⟩

end VersionManager
